import Mathlib

/-!
Shallow embedding of the order placement and fulfillment core of the
AutoSpareHub storefront (Flask + SQLAlchemy source), together with proofs
about the claims of its specification.

Conventions of the embedding:
* `Decimal` column values and Python `decimal.Decimal` arithmetic are modelled
  as `ℚ`: every operation the source performs on them (addition,
  multiplication, division of a two-decimal-place number by 100) is exact in
  decimal arithmetic, hence exact in `ℚ`.
* The database session of one request is modelled by explicit state passing;
  a handler that flashes an error and redirects without committing is
  modelled as `Except`/error results carrying no new state (the caller keeps
  the unchanged state).
* The embedding models a single user's cart: the `user_id` column and the
  ownership checks of the routes project away, and the unique constraint
  `unique_cart_item` on `(user_id, product_id)` becomes distinctness of
  `product_id` within the cart list.
* Wall clocks (`datetime.now`, `datetime.utcnow`) and the random generator
  are passed in as explicit parameters.
-/

namespace AutoSpareHub

/-- Money amounts (SQL `Numeric` columns, Python `Decimal`) modelled as `ℚ`. -/
abbrev Money := ℚ

/-- Config.TAX_RATE = 0.18 (18% GST); the source converts it through
`Decimal(str(0.18)) = Decimal("0.18")`, exactly 18/100. -/
def TAX_RATE : Money := 18 / 100

/-- Config.SHIPPING_RATE = 50.00, converted through `Decimal(str(50.0))`. -/
def SHIPPING_RATE : Money := 50

/-- Row of the `products` table (`models.py`, class `Product`), restricted to
the fields the order pipeline reads. -/
structure Product where
  id : Nat
  name : String
  part_number : String
  price : Money
  discount : Money
  stock_quantity : Int
  is_active : Bool
deriving Repr, DecidableEq

/-- Product.discounted_price (`models.py` lines 164-168): `if self.discount:
return self.price * (1 - self.discount / 100); return self.price`. A zero
discount is falsy in Python, so the property returns the raw price then. -/
def Product.discounted_price (p : Product) : Money :=
  if p.discount ≠ 0 then p.price * (1 - p.discount / 100) else p.price

/-- Product.decrease_stock (`models.py` lines 185-189): decrement and return
True when `stock_quantity >= quantity`, otherwise leave the row unchanged and
return False. -/
def Product.decrease_stock (p : Product) (quantity : Int) : Product × Bool :=
  if p.stock_quantity ≥ quantity then
    ({ p with stock_quantity := p.stock_quantity - quantity }, true)
  else
    (p, false)

/-- Product.increase_stock (`models.py` lines 191-192). -/
def Product.increase_stock (p : Product) (quantity : Int) : Product :=
  { p with stock_quantity := p.stock_quantity + quantity }

/-- Row of the `cart` table (`models.py`, class `Cart`) for the modelled user:
primary key `id`, foreign key `product_id`, and `quantity`. -/
structure CartItem where
  id : Nat
  product_id : Nat
  quantity : Int
deriving Repr, DecidableEq

/-- Database state seen by the cart/checkout routes: the product rows and the
current user's cart rows, each in table order. -/
structure State where
  products : List Product
  cart : List CartItem
deriving Repr, DecidableEq

/-- Lookup of a product row by primary key (`Product.query.get`, or the
`cart_item.product` relationship). -/
def getProduct (ps : List Product) (pid : Nat) : Option Product :=
  ps.find? (fun p => p.id == pid)

/-- Row of the `order_items` table (`models.py`, class `OrderItem`): immutable
snapshot of the purchased product. -/
structure OrderItem where
  product_id : Nat
  product_name : String
  part_number : String
  quantity : Int
  unit_price : Money
  total_price : Money
deriving Repr, DecidableEq

/-- Row of the `order_status_history` table (`models.py`, class
`OrderStatusHistory`); `created_at` is an abstract timestamp. -/
structure OrderStatusHistory where
  status : String
  notes : Option String
  created_at : Nat
deriving Repr, DecidableEq

/-- Row of the `orders` table (`models.py`, class `Order`) together with its
owned `items` and `status_history` collections. -/
structure Order where
  order_number : String
  subtotal : Money
  tax_amount : Money
  shipping_amount : Money
  total_amount : Money
  payment_method : String
  payment_status : String
  order_status : String
  tracking_number : Option String
  items : List OrderItem
  status_history : List OrderStatusHistory
deriving Repr, DecidableEq

/-- Boolean success of an `Except` result (a JSON `success` flag / whether the
handler reached its success branch). -/
def exceptIsOk {ε α : Type} : Except ε α → Bool
  | .ok _ => true
  | .error _ => false

/-- add_to_cart (`routes/cart.py` lines 43-88). `newId` stands for the fresh
primary key the database would assign to a newly inserted cart row. Error
strings are the JSON messages of the route; a missing product is the
`get_or_404` path. -/
def add_to_cart (st : State) (product_id : Nat) (quantity : Int) (newId : Nat) :
    Except String State :=
  match getProduct st.products product_id with
  | none => .error "Not found"
  | some product =>
    if quantity < 1 then .error "Invalid quantity"
    else if product.stock_quantity < quantity then .error "Insufficient stock"
    else
      match st.cart.find? (fun c => c.product_id == product_id) with
      | some cart_item =>
        let new_quantity := cart_item.quantity + quantity
        if product.stock_quantity < new_quantity then .error "Insufficient stock"
        else .ok { st with cart := st.cart.map (fun c =>
          if c.product_id == product_id then { c with quantity := new_quantity } else c) }
      | none =>
        .ok { st with cart := st.cart ++ [⟨newId, product_id, quantity⟩] }

/-- update_cart (`routes/cart.py` lines 90-119). The quantity arrives as
`request.form.get('quantity', type=int)`, i.e. `Option Int`; `if not quantity
or quantity < 1` rejects `None`, `0` and negatives. -/
def update_cart (st : State) (item_id : Nat) (quantity : Option Int) :
    Except String State :=
  match st.cart.find? (fun c => c.id == item_id) with
  | none => .error "Not found"
  | some cart_item =>
    match quantity with
    | none => .error "Invalid quantity"
    | some q =>
      if q < 1 then .error "Invalid quantity"
      else
        match getProduct st.products cart_item.product_id with
        | none => .error "Not found"
        | some product =>
          if product.stock_quantity < q then .error "Insufficient stock"
          else .ok { st with cart := st.cart.map (fun c =>
            if c.id == item_id then { c with quantity := q } else c) }

/-- remove_from_cart (`routes/cart.py` lines 121-141): delete the cart row
with the given primary key. -/
def remove_from_cart (st : State) (item_id : Nat) : Except String State :=
  match st.cart.find? (fun c => c.id == item_id) with
  | none => .error "Not found"
  | some _ => .ok { st with cart := st.cart.filter (fun c => c.id != item_id) }

/-- Failure outcomes of the checkout route (`routes/cart.py` lines 147-157):
the empty-cart flash, and the per-product insufficient-stock flash carrying
the product name and its available stock. `missingProduct` is the
`cart_item.product` relationship resolving to no row, impossible under the
foreign-key constraint of the schema. -/
inductive CheckoutError where
  | emptyCart : CheckoutError
  | insufficientStock (productName : String) (available : Int) : CheckoutError
  | missingProduct : CheckoutError
deriving Repr, DecidableEq

/-- Precondition loop of checkout (`routes/cart.py` lines 153-157): walk the
cart rows in order and report the first one whose product has
`stock_quantity < quantity`. -/
def checkStock (lines : List CartItem) (ps : List Product) : Option CheckoutError :=
  match lines with
  | [] => none
  | l :: rest =>
    match getProduct ps l.product_id with
    | none => some .missingProduct
    | some p =>
      if p.stock_quantity < l.quantity then
        some (.insufficientStock p.name p.stock_quantity)
      else checkStock rest ps

/-- Subtotal loop of checkout (`routes/cart.py` lines 177-179):
`subtotal += item.product.discounted_price * item.quantity` over the cart
rows. -/
def cartSubtotal (lines : List CartItem) (ps : List Product) : Option Money :=
  match lines with
  | [] => some 0
  | l :: rest =>
    match getProduct ps l.product_id with
    | none => none
    | some p =>
      match cartSubtotal rest ps with
      | none => none
      | some s => some (p.discounted_price * (l.quantity : Money) + s)

/-- Effect of `cart_item.product.decrease_stock(cart_item.quantity)` on the
products table: the row with the cart line's product id is replaced by its
decremented version (the returned Bool is discarded by the route). -/
def applyLine (ps : List Product) (l : CartItem) : List Product :=
  ps.map (fun p => if p.id == l.product_id then (p.decrease_stock l.quantity).1 else p)

/-- Item loop of checkout (`routes/cart.py` lines 202-219): for each cart row
in order, snapshot an OrderItem from the product, decrement that product's
stock, and delete the cart row. Returns the order items and the final
products table. -/
def processItems (lines : List CartItem) (ps : List Product) :
    Option (List OrderItem × List Product) :=
  match lines with
  | [] => some ([], ps)
  | l :: rest =>
    match getProduct ps l.product_id with
    | none => none
    | some p =>
      let item : OrderItem :=
        { product_id := p.id
          product_name := p.name
          part_number := p.part_number
          quantity := l.quantity
          unit_price := p.discounted_price
          total_price := p.discounted_price * (l.quantity : Money) }
      match processItems rest (applyLine ps l) with
      | none => none
      | some (items, ps') => some (item :: items, ps')

/-- checkout (`routes/cart.py` lines 143-242), the POST path after a valid
form and address: reject an empty cart, reject the first cart line with
insufficient stock, otherwise compute pricing, create the order with its item
snapshots and initial `pending` history entry, decrement stock, clear the
cart, and commit. `order_number` stands for `Order.generate_order_number()`,
`now` for the `created_at` default `datetime.utcnow` of the history row. -/
def checkout (st : State) (order_number payment_method : String) (now : Nat) :
    Except CheckoutError (State × Order) :=
  if st.cart.isEmpty then .error .emptyCart
  else
    match checkStock st.cart st.products with
    | some e => .error e
    | none =>
      match cartSubtotal st.cart st.products with
      | none => .error .missingProduct
      | some subtotal =>
        let tax_amount := subtotal * TAX_RATE
        let shipping_amount := SHIPPING_RATE
        let total_amount := subtotal + tax_amount + shipping_amount
        match processItems st.cart st.products with
        | none => .error .missingProduct
        | some (items, products') =>
          .ok ({ products := products', cart := [] },
            { order_number := order_number
              subtotal := subtotal
              tax_amount := tax_amount
              shipping_amount := shipping_amount
              total_amount := total_amount
              payment_method := payment_method
              payment_status := "pending"
              order_status := "pending"
              tracking_number := none
              items := items
              status_history := [⟨"pending", some "Order placed successfully", now⟩] })

/-- Statuses accepted by the admin status-update route
(`routes/admin.py` line 308). -/
def VALID_ORDER_STATUSES : List String :=
  ["pending", "confirmed", "packed", "shipped", "delivered", "cancelled"]

/-- Python truthiness of `request.form.get('tracking_number')`: `None` and
the empty string are falsy. -/
def pyTruthy (s : Option String) : Bool :=
  match s with
  | none => false
  | some str => str != ""

/-- update_order_status (`routes/admin.py` lines 299-341): validate the
requested status against the six known values, set `order_status`, set
`tracking_number` when a truthy one was posted, append one history row, and
commit. `now` stands for the history row's `created_at` default. -/
def update_order_status (order : Order) (new_status : String) (notes : String)
    (tracking_number : Option String) (now : Nat) : Except String Order :=
  if new_status ∉ VALID_ORDER_STATUSES then .error "Invalid status"
  else
    .ok { order with
      order_status := new_status
      tracking_number :=
        if pyTruthy tracking_number then tracking_number else order.tracking_number
      status_history := order.status_history ++ [⟨new_status, some notes, now⟩] }

/-- Entry of the timeline returned by `Order.get_status_timeline`. -/
structure TimelineEntry where
  status : String
  timestamp : Nat
  notes : Option String
deriving Repr, DecidableEq

/-- Comparison key of `sorted(timeline, key=lambda x: x['timestamp'])`. -/
def timeLe (a b : TimelineEntry) : Prop := a.timestamp ≤ b.timestamp

instance : DecidableRel timeLe := fun a b => Nat.decLe a.timestamp b.timestamp

instance : IsTotal TimelineEntry timeLe := ⟨fun a b => Nat.le_total a.timestamp b.timestamp⟩

instance : IsTrans TimelineEntry timeLe := ⟨fun _ _ _ h h' => Nat.le_trans h h'⟩

/-- Order.get_status_timeline (`models.py` lines 299-307): project each
history row to `{status, timestamp, notes}` and sort stably by timestamp
(Python's `sorted` is a stable sort, as is `List.insertionSort`). -/
def get_status_timeline (history : List OrderStatusHistory) : List TimelineEntry :=
  List.insertionSort timeLe
    (history.map (fun h => ⟨h.status, h.created_at, h.notes⟩))

/-- Decimal digits of a natural number, most significant first, written with
explicit fuel so that the definition is structural and evaluates in the
kernel; `natDigits` below always supplies enough fuel. -/
def natDigitsAux : Nat → Nat → List Char
  | 0, _ => []
  | fuel + 1, n =>
    if n < 10 then [Nat.digitChar n]
    else natDigitsAux fuel (n / 10) ++ [Nat.digitChar (n % 10)]

/-- Decimal representation of `n` as a list of digit characters. -/
def natDigits (n : Nat) : List Char := natDigitsAux (n + 1) n

/-- Zero-padding of a number to a fixed width, as the `%Y`/`%m`/... strftime
directives do. -/
def padNat (width n : Nat) : List Char :=
  List.replicate (width - (natDigits n).length) '0' ++ natDigits n

/-- Components of a wall-clock reading, as consumed by
`strftime('%Y%m%d%H%M%S')`. -/
structure DateTimeParts where
  year : Nat
  month : Nat
  day : Nat
  hour : Nat
  minute : Nat
  second : Nat
deriving Repr, DecidableEq

/-- strftime('%Y%m%d%H%M%S') of a wall-clock reading. -/
def formatTimestamp (t : DateTimeParts) : String :=
  String.mk (padNat 4 t.year ++ padNat 2 t.month ++ padNat 2 t.day ++
    padNat 2 t.hour ++ padNat 2 t.minute ++ padNat 2 t.second)

/-- Both clocks available to the process at the moment of the call:
`datetime.utcnow()` and the timezone-local `datetime.now()`. -/
structure Clock where
  utc : DateTimeParts
  localNow : DateTimeParts
deriving Repr, DecidableEq

/-- string.ascii_uppercase + string.digits, the alphabet of
`Order.generate_order_number` (`models.py` line 282). -/
def ORDER_CHARSET : List Char := "ABCDEFGHIJKLMNOPQRSTUVWXYZ0123456789".toList

/-- Decimal digit characters. -/
def digitChars : List Char := "0123456789".toList

/-- random.choices(alphabet, k=k) with the random source modelled as a stream
`pick` of indices, each reduced into the alphabet. -/
def randomChoices (alphabet : List Char) (k : Nat) (pick : Nat → Nat) : List Char :=
  (List.range k).map (fun i => alphabet.getD (pick i % alphabet.length) 'A')

/-- Order.generate_order_number (`models.py` lines 277-283): the timestamp
comes from `datetime.now()` — the LOCAL clock — formatted
`%Y%m%d%H%M%S`, between the literal prefix `ASH-` and a 6-character random
suffix over uppercase letters and digits. -/
def generate_order_number (clock : Clock) (pick : Nat → Nat) : String :=
  "ASH-" ++ formatTimestamp clock.localNow ++ "-" ++
    String.mk (randomChoices ORDER_CHARSET 6 pick)

/-- Row of the `push_subscriptions` table (`models.py`, class
`PushSubscription`). -/
structure PushSubscription where
  id : Nat
  endpoint : String
deriving Repr, DecidableEq

/-- Outcome of one `webpush(...)` call for one subscription: acceptance, or a
`WebPushException` carrying the response status code when a response is
attached. -/
inductive PushOutcome where
  | ok : PushOutcome
  | webPushErr (status : Option Nat) : PushOutcome
deriving Repr, DecidableEq

/-- send_push_notification (`routes/notifications.py` lines 106-170): bail
out returning False on an empty subscription list or missing VAPID
configuration; otherwise fan out over the subscriptions, counting successes
and marking a subscription deleted in the session when its endpoint rejects
with HTTP 410; `db.session.commit()` runs only in the `success_count > 0`
branch, so the pending deletions persist only then (otherwise the request's
session is discarded uncommitted). Returns the reported Bool and the
subscription rows that remain persisted. -/
def send_push_notification (subs : List PushSubscription) (vapidConfigured : Bool)
    (outcome : PushSubscription → PushOutcome) : Bool × List PushSubscription :=
  if subs = [] then (false, subs)
  else if !vapidConfigured then (false, subs)
  else
    let success_count := subs.countP (fun s => outcome s == .ok)
    if success_count > 0 then
      (true, subs.filter (fun s => !(outcome s == .webPushErr (some 410))))
    else (false, subs)

/-- send_order_confirmation_email (`routes/cart.py` lines 345-368): the body
builds and sends the message — its outcome is the parameter — and any
exception is caught, logged and turned into `False`. -/
def send_order_confirmation_email (mailSend : Except String Unit) : Bool :=
  match mailSend with
  | .ok _ => true
  | .error _ => false

/-- send_admin_order_notification (`routes/cart.py` lines 370-393): same
catch-all shape as the confirmation email. -/
def send_admin_order_notification (mailSend : Except String Unit) : Bool :=
  match mailSend with
  | .ok _ => true
  | .error _ => false

/-- send_order_status_email (`routes/admin.py`): same catch-all shape as the
other mail senders. -/
def send_order_status_email (mailSend : Except String Unit) : Bool :=
  match mailSend with
  | .ok _ => true
  | .error _ => false

/-- Tail of the checkout route after `db.session.commit()` (`routes/cart.py`
lines 230-242): the two notification sends run after the commit and their
Bool results are discarded, so the committed state and order do not depend on
them. -/
def checkout_route (st : State) (order_number payment_method : String) (now : Nat)
    (mailCustomer mailAdmin : Except String Unit) :
    Except CheckoutError (State × Order × Bool × Bool) :=
  match checkout st order_number payment_method now with
  | .error e => .error e
  | .ok (st', order) =>
    .ok (st', order, send_order_confirmation_email mailCustomer,
      send_admin_order_notification mailAdmin)

/-- Tail of the admin status route after `db.session.commit()`
(`routes/admin.py` lines 325-341): status email and push dispatch run after
the commit and their results are discarded. -/
def update_order_status_route (order : Order) (new_status : String) (notes : String)
    (tracking_number : Option String) (now : Nat) (mailStatus : Except String Unit)
    (subs : List PushSubscription) (vapidConfigured : Bool)
    (outcome : PushSubscription → PushOutcome) :
    Except String (Order × Bool × (Bool × List PushSubscription)) :=
  match update_order_status order new_status notes tracking_number now with
  | .error e => .error e
  | .ok order' =>
    .ok (order', send_order_status_email mailStatus,
      send_push_notification subs vapidConfigured outcome)

/-- Checkout precondition as a Boolean on the state: every cart line's
product exists and has stock at least the line quantity. -/
def stockAvailable (st : State) : Bool :=
  st.cart.all (fun l =>
    match getProduct st.products l.product_id with
    | some p => decide (l.quantity ≤ p.stock_quantity)
    | none => false)

/-- Quantity the cart line for `pid` would hold after an add of `q`: the
existing line's quantity (0 for a new line) plus the requested quantity. -/
def resultingQuantity (st : State) (pid : Nat) (q : Int) : Int :=
  ((st.cart.find? (fun c => c.product_id == pid)).map (fun c => c.quantity)).getD 0 + q

/-- States of one user's session reachable through the cart operations: from
an initial empty cart, via add/update/remove/checkout; `catalog` covers
product-table changes made elsewhere (admin stock or price edits), which
never touch the cart rows. -/
inductive Reachable : State → Prop where
  | init (products : List Product) : Reachable ⟨products, []⟩
  | add (st : State) (pid : Nat) (q : Int) (nid : Nat) (st' : State) :
      Reachable st → add_to_cart st pid q nid = .ok st' → Reachable st'
  | update (st : State) (iid : Nat) (q : Option Int) (st' : State) :
      Reachable st → update_cart st iid q = .ok st' → Reachable st'
  | remove (st : State) (iid : Nat) (st' : State) :
      Reachable st → remove_from_cart st iid = .ok st' → Reachable st'
  | place (st : State) (onum pm : String) (now : Nat) (st' : State) (order : Order) :
      Reachable st → checkout st onum pm now = .ok (st', order) → Reachable st'
  | catalog (st : State) (products : List Product) :
      Reachable st → Reachable ⟨products, st.cart⟩

/-! ### Concrete inputs used in scenario theorems and witnesses -/

/-- Product of the spec's end-to-end pricing scenario: price 100, discount
10%, stock 2, active. -/
def exProductA : Product := ⟨1, "A", "PN-A", 100, 10, 2, true⟩

/-- Second product, no discount, ample stock. -/
def exProductB : Product := ⟨2, "B", "PN-B", 250, 0, 7, true⟩

/-- Cart with the single line of the pricing scenario: product A, qty 2. -/
def exStateSingle : State := ⟨[exProductA], [⟨1, 1, 2⟩]⟩

/-- Cart with two lines over distinct products, both with available stock. -/
def exStateTwoLines : State := ⟨[exProductA, exProductB], [⟨1, 1, 2⟩, ⟨2, 2, 3⟩]⟩

/-- State whose only product is INACTIVE but has ample stock, with it in the
cart. -/
def exStateInactive : State := ⟨[⟨1, "X", "PN-X", 100, 0, 5, false⟩], [⟨1, 1, 1⟩]⟩

/-- State with an empty cart. -/
def exStateEmptyCart : State := ⟨[exProductA], []⟩

/-- Product with zero stock, as in the spec's out-of-stock scenario. -/
def exProductShort : Product := ⟨1, "X", "PN-X", 50, 0, 0, true⟩

/-- Cart holding one unit of the zero-stock product. -/
def exStateShort : State := ⟨[exProductShort], [⟨1, 1, 1⟩]⟩

/-- Base order (no tracking number, initial pending history) for status
transition scenarios; money fields are whole numbers. -/
def exOrderBase : Order :=
  ⟨"ASH-0", 100, 18, 50, 168, "cod", "pending", "pending", none, [],
    [⟨"pending", some "Order placed successfully", 0⟩]⟩

/-- State after checking out `exStateSingle`: stock of A exhausted, cart
cleared. -/
def exStateSingleAfter : State := ⟨[⟨1, "A", "PN-A", 100, 10, 0, true⟩], []⟩

/-- Order created by checking out `exStateSingle`: the spec scenario's
subtotal 180.00, tax 32.40, shipping 50.00, total 262.40. -/
def exOrderSingle : Order :=
  ⟨"ASH-2", 180, 162/5, 50, 1312/5, "cod", "pending", "pending", none,
    [⟨1, "A", "PN-A", 2, 90, 180⟩],
    [⟨"pending", some "Order placed successfully", 0⟩]⟩

/-- State after checking out `exStateTwoLines`. -/
def exStateTwoLinesAfter : State :=
  ⟨[⟨1, "A", "PN-A", 100, 10, 0, true⟩, ⟨2, "B", "PN-B", 250, 0, 4, true⟩], []⟩

/-- Order created by checking out `exStateTwoLines`: subtotal
180 + 750 = 930, tax 167.40, shipping 50, total 1147.40. -/
def exOrderTwoLines : Order :=
  ⟨"ASH-1", 930, 837/5, 50, 5737/5, "cod", "pending", "pending", none,
    [⟨1, "A", "PN-A", 2, 90, 180⟩, ⟨2, "B", "PN-B", 3, 250, 750⟩],
    [⟨"pending", some "Order placed successfully", 0⟩]⟩

/-- State after adding one more unit of product B to `exStateTwoLines`. -/
def exStateTwoLinesAdded : State :=
  ⟨[exProductA, exProductB], [⟨1, 1, 2⟩, ⟨2, 2, 4⟩]⟩

/-- Expected result of transitioning `exOrderBase` to `shipped` with notes
and a tracking number at time 7. -/
def exOrderShipped : Order :=
  ⟨"ASH-0", 100, 18, 50, 168, "cod", "pending", "shipped", some "TRK-1", [],
    [⟨"pending", some "Order placed successfully", 0⟩,
     ⟨"shipped", some "via carrier X", 7⟩]⟩

/-- Moment at which the UTC clock and the server-local clock differ (a
UTC+5:30 server at noon UTC). -/
def exClock : Clock := ⟨⟨2024, 1, 1, 12, 0, 0⟩, ⟨2024, 1, 1, 17, 30, 0⟩⟩

/-- History rows of an order recorded at increasing timestamps. -/
def exHistory : List OrderStatusHistory :=
  [⟨"pending", some "Order placed successfully", 1⟩,
   ⟨"confirmed", none, 3⟩,
   ⟨"shipped", some "via carrier X", 5⟩]

/-- Two push subscriptions of one user. -/
def exSubs : List PushSubscription := [⟨1, "endpoint-1"⟩, ⟨2, "endpoint-2"⟩]

/-- Push transport where the first subscription accepts and the second is
gone (HTTP 410). -/
def exOutcomeMixed : PushSubscription → PushOutcome :=
  fun s => if s.id = 1 then .ok else .webPushErr (some 410)

/-- Push transport where every endpoint is gone (HTTP 410). -/
def exOutcomeGone : PushSubscription → PushOutcome :=
  fun _ => .webPushErr (some 410)

/-! ### Helper lemmas about products and lookups -/

theorem Product.decrease_stock_fst_id (p : Product) (q : Int) :
    ((p.decrease_stock q).1).id = p.id := by
  unfold Product.decrease_stock; split <;> rfl

theorem Product.decrease_stock_fst_name (p : Product) (q : Int) :
    ((p.decrease_stock q).1).name = p.name := by
  unfold Product.decrease_stock; split <;> rfl

theorem Product.discounted_price_decrease_stock (p : Product) (q : Int) :
    ((p.decrease_stock q).1).discounted_price = p.discounted_price := by
  unfold Product.decrease_stock Product.discounted_price; split <;> rfl

theorem Product.decrease_stock_nonneg (p : Product) (q : Int)
    (h : 0 ≤ p.stock_quantity) : 0 ≤ ((p.decrease_stock q).1).stock_quantity := by
  unfold Product.decrease_stock
  split
  · next hge => simp only; omega
  · exact h

theorem getProduct_eq_some_id {ps : List Product} {x : Nat} {p : Product}
    (h : getProduct ps x = some p) : p.id = x := by
  have h' : ps.find? (fun q => q.id == x) = some p := h
  have := List.find?_some h'
  simpa using this

theorem getProduct_map (f : Product → Product) (hf : ∀ p : Product, (f p).id = p.id)
    (ps : List Product) (x : Nat) :
    getProduct (ps.map f) x = (getProduct ps x).map f := by
  induction ps with
  | nil => rfl
  | cons p rest ih =>
    by_cases h : p.id = x
    · have h1 : ((f p).id == x) = true := by simp [hf p, h]
      have h2 : (p.id == x) = true := by simp [h]
      simp [getProduct, List.find?_cons_of_pos, h1, h2]
    · have h1 : ((f p).id == x) = false := by simp [hf p, h]
      have h2 : (p.id == x) = false := by simp [h]
      simpa [getProduct, List.find?_cons_of_neg, h1, h2] using ih

theorem getProduct_applyLine (ps : List Product) (l : CartItem) (x : Nat) :
    getProduct (applyLine ps l) x =
      if x = l.product_id then
        (getProduct ps x).map (fun p => (p.decrease_stock l.quantity).1)
      else getProduct ps x := by
  have hid : ∀ p : Product,
      ((if p.id == l.product_id then (p.decrease_stock l.quantity).1 else p) : Product).id
        = p.id := by
    intro p
    split
    · exact Product.decrease_stock_fst_id p l.quantity
    · rfl
  unfold applyLine
  rw [getProduct_map _ hid]
  cases hq : getProduct ps x with
  | none => split <;> rfl
  | some p =>
    have hpid : p.id = x := getProduct_eq_some_id hq
    by_cases hx : x = l.product_id
    · simp [hx, hpid, Option.map]
    · simp [hx, hpid, Option.map]

theorem getProduct_applyLine_isSome (ps : List Product) (l : CartItem) (x : Nat) :
    (getProduct (applyLine ps l) x).isSome = (getProduct ps x).isSome := by
  rw [getProduct_applyLine]
  split
  · cases getProduct ps x <;> rfl
  · rfl

/-! ### Helper lemmas about the checkout loops -/

theorem processItems_isSome (lines : List CartItem) (ps : List Product)
    (h : ∀ l ∈ lines, (getProduct ps l.product_id).isSome) :
    (processItems lines ps).isSome := by
  induction lines generalizing ps with
  | nil => rfl
  | cons l rest ih =>
    have hl := h l (List.mem_cons_self l rest)
    cases hq : getProduct ps l.product_id with
    | none => rw [hq] at hl; simp at hl
    | some p =>
      have hrest : ∀ l' ∈ rest, (getProduct (applyLine ps l) l'.product_id).isSome := by
        intro l' hl'
        rw [getProduct_applyLine_isSome]
        exact h l' (List.mem_cons_of_mem _ hl')
      have hih := ih (applyLine ps l) hrest
      unfold processItems
      rw [hq]
      simp only
      cases hpi : processItems rest (applyLine ps l) with
      | none => rw [hpi] at hih; simp at hih
      | some pr => cases pr; simp

theorem processItems_untouched (lines : List CartItem) (ps : List Product)
    (items : List OrderItem) (ps' : List Product) (x : Nat)
    (h : processItems lines ps = some (items, ps'))
    (hx : x ∉ lines.map (fun l => l.product_id)) :
    getProduct ps' x = getProduct ps x := by
  induction lines generalizing ps items with
  | nil =>
    unfold processItems at h
    injection h with h'
    injection h' with _ h2
    rw [← h2]
  | cons l rest ih =>
    unfold processItems at h
    cases hq : getProduct ps l.product_id with
    | none => rw [hq] at h; exact absurd h (by simp)
    | some p =>
      rw [hq] at h
      simp only at h
      cases hpi : processItems rest (applyLine ps l) with
      | none => rw [hpi] at h; exact absurd h (by simp)
      | some pr =>
        obtain ⟨items', ps''⟩ := pr
        rw [hpi] at h
        simp only [Option.some.injEq, Prod.mk.injEq] at h
        obtain ⟨hit, hps⟩ := h
        simp only [List.map_cons, List.mem_cons, not_or] at hx
        obtain ⟨hx1, hx2⟩ := hx
        have := ih (applyLine ps l) items' (by rw [hpi, hps]) hx2
        rw [this, getProduct_applyLine, if_neg hx1]

theorem processItems_stock (lines : List CartItem) (ps : List Product)
    (items : List OrderItem) (ps' : List Product)
    (hnd : (lines.map (fun l => l.product_id)).Nodup)
    (h : processItems lines ps = some (items, ps')) :
    ∀ l ∈ lines, getProduct ps' l.product_id =
      (getProduct ps l.product_id).map (fun p => (p.decrease_stock l.quantity).1) := by
  induction lines generalizing ps items with
  | nil => intro l hl; exact absurd hl (List.not_mem_nil l)
  | cons l rest ih =>
    unfold processItems at h
    cases hq : getProduct ps l.product_id with
    | none => rw [hq] at h; exact absurd h (by simp)
    | some p =>
      rw [hq] at h
      simp only at h
      cases hpi : processItems rest (applyLine ps l) with
      | none => rw [hpi] at h; exact absurd h (by simp)
      | some pr =>
        obtain ⟨items', ps''⟩ := pr
        rw [hpi] at h
        simp only [Option.some.injEq, Prod.mk.injEq] at h
        obtain ⟨hit, hps⟩ := h
        rw [List.map_cons, List.nodup_cons] at hnd
        obtain ⟨hnotin, hnd'⟩ := hnd
        intro l' hl'
        rcases List.mem_cons.mp hl' with heq | hmem
        · subst heq
          have huntouched : getProduct ps' l'.product_id
              = getProduct (applyLine ps l') l'.product_id :=
            processItems_untouched rest (applyLine ps l') items' ps' l'.product_id
              (by rw [hpi, hps]) hnotin
          rw [huntouched, getProduct_applyLine, if_pos rfl]
        · have hne : l'.product_id ≠ l.product_id := by
            intro hcontra
            exact hnotin (hcontra ▸ List.mem_map_of_mem (fun c => c.product_id) hmem)
          have := ih (applyLine ps l) items' hnd' (by rw [hpi, hps]) l' hmem
          rw [this, getProduct_applyLine, if_neg hne]

theorem cartSubtotal_applyLine (rest : List CartItem) (ps : List Product) (l : CartItem) :
    cartSubtotal rest (applyLine ps l) = cartSubtotal rest ps := by
  induction rest with
  | nil => rfl
  | cons l' rest' ih =>
    unfold cartSubtotal
    rw [getProduct_applyLine]
    by_cases hx : l'.product_id = l.product_id
    · rw [if_pos hx]
      cases hq : getProduct ps l'.product_id <;>
        simp [hq, ih, Product.discounted_price_decrease_stock]
    · rw [if_neg hx]
      cases hq : getProduct ps l'.product_id <;> simp [hq, ih]

theorem processItems_sum (lines : List CartItem) (ps : List Product)
    (items : List OrderItem) (ps' : List Product)
    (h : processItems lines ps = some (items, ps')) :
    cartSubtotal lines ps = some ((items.map (fun i => i.total_price)).sum) := by
  induction lines generalizing ps items with
  | nil =>
    unfold processItems at h
    injection h with h'
    injection h' with h1 _
    rw [← h1]
    rfl
  | cons l rest ih =>
    unfold processItems at h
    cases hq : getProduct ps l.product_id with
    | none => rw [hq] at h; exact absurd h (by simp)
    | some p =>
      rw [hq] at h
      simp only at h
      cases hpi : processItems rest (applyLine ps l) with
      | none => rw [hpi] at h; exact absurd h (by simp)
      | some pr =>
        obtain ⟨items', ps''⟩ := pr
        rw [hpi] at h
        simp only [Option.some.injEq, Prod.mk.injEq] at h
        obtain ⟨hit, hps⟩ := h
        have hrest := ih (applyLine ps l) items' (by rw [hpi, hps])
        rw [cartSubtotal_applyLine] at hrest
        unfold cartSubtotal
        rw [hq, hrest, ← hit]
        simp

theorem checkStock_none_of_available (lines : List CartItem) (ps : List Product)
    (h : ∀ l ∈ lines, ∃ p, getProduct ps l.product_id = some p
      ∧ l.quantity ≤ p.stock_quantity) :
    checkStock lines ps = none := by
  induction lines with
  | nil => rfl
  | cons l rest ih =>
    obtain ⟨p, hp, hstock⟩ := h l (List.mem_cons_self l rest)
    unfold checkStock
    rw [hp]
    simp only
    rw [if_neg (by omega)]
    exact ih (fun l' hl' => h l' (List.mem_cons_of_mem _ hl'))

theorem cartSubtotal_isSome (lines : List CartItem) (ps : List Product)
    (h : ∀ l ∈ lines, (getProduct ps l.product_id).isSome) :
    (cartSubtotal lines ps).isSome := by
  induction lines with
  | nil => rfl
  | cons l rest ih =>
    have hl := h l (List.mem_cons_self l rest)
    cases hq : getProduct ps l.product_id with
    | none => rw [hq] at hl; simp at hl
    | some p =>
      have hih := ih (fun l' hl' => h l' (List.mem_cons_of_mem _ hl'))
      unfold cartSubtotal
      rw [hq]
      cases hcs : cartSubtotal rest ps with
      | none => rw [hcs] at hih; simp at hih
      | some s => simp

theorem Product.decrease_stock_of_le (p : Product) (q : Int)
    (h : q ≤ p.stock_quantity) :
    p.decrease_stock q = ({ p with stock_quantity := p.stock_quantity - q }, true) := by
  unfold Product.decrease_stock
  rw [if_pos (by omega)]

theorem Product.decrease_stock_of_lt (p : Product) (q : Int)
    (h : p.stock_quantity < q) :
    p.decrease_stock q = (p, false) := by
  unfold Product.decrease_stock
  rw [if_neg (by omega)]

theorem stockAvailable_iff (st : State) :
    stockAvailable st = true ↔
      ∀ l ∈ st.cart, ∃ p, getProduct st.products l.product_id = some p
        ∧ l.quantity ≤ p.stock_quantity := by
  unfold stockAvailable
  rw [List.all_eq_true]
  constructor
  · intro h l hl
    have hel := h l hl
    cases hq : getProduct st.products l.product_id with
    | none => rw [hq] at hel; simp at hel
    | some p =>
      rw [hq] at hel
      simp only [decide_eq_true_eq] at hel
      exact ⟨p, rfl, hel⟩
  · intro h l hl
    obtain ⟨p, hp, hq⟩ := h l hl
    rw [hp]
    simpa using hq

/-- Characterization of a successful checkout: under a non-empty cart with
available stock, the route reaches its commit with exactly the order built
from the pricing and item loops. -/
theorem checkout_eq_ok (st : State) (onum pm : String) (now : Nat)
    (hne : st.cart ≠ [])
    (hav : ∀ l ∈ st.cart, ∃ p, getProduct st.products l.product_id = some p
      ∧ l.quantity ≤ p.stock_quantity) :
    ∃ items products' subtotal,
      processItems st.cart st.products = some (items, products') ∧
      cartSubtotal st.cart st.products = some subtotal ∧
      checkout st onum pm now = .ok ({ products := products', cart := [] },
        { order_number := onum
          subtotal := subtotal
          tax_amount := subtotal * TAX_RATE
          shipping_amount := SHIPPING_RATE
          total_amount := subtotal + subtotal * TAX_RATE + SHIPPING_RATE
          payment_method := pm
          payment_status := "pending"
          order_status := "pending"
          tracking_number := none
          items := items
          status_history := [⟨"pending", some "Order placed successfully", now⟩] }) := by
  have hsome : ∀ l ∈ st.cart, (getProduct st.products l.product_id).isSome := by
    intro l hl
    obtain ⟨p, hp, _⟩ := hav l hl
    rw [hp]; rfl
  have hempty : st.cart.isEmpty = false := by
    cases hc : st.cart.isEmpty with
    | false => rfl
    | true => exact absurd (by simpa using hc) hne
  have hcs := checkStock_none_of_available st.cart st.products hav
  obtain ⟨sub, hsub⟩ := Option.isSome_iff_exists.mp
    (cartSubtotal_isSome st.cart st.products hsome)
  obtain ⟨pr, hpr⟩ := Option.isSome_iff_exists.mp
    (processItems_isSome st.cart st.products hsome)
  obtain ⟨items, products'⟩ := pr
  refine ⟨items, products', sub, hpr, hsub, ?_⟩
  unfold checkout
  rw [hempty]
  simp only [Bool.false_eq_true, if_false]
  rw [hcs, hsub, hpr]

/-- Inversion of a successful checkout: the committed state and order are the
ones produced by the pricing and item loops. -/
theorem checkout_ok_inv (st : State) (onum pm : String) (now : Nat)
    (st' : State) (order : Order)
    (h : checkout st onum pm now = .ok (st', order)) :
    ∃ items subtotal,
      processItems st.cart st.products = some (items, st'.products) ∧
      cartSubtotal st.cart st.products = some subtotal ∧
      st'.cart = [] ∧
      order.subtotal = subtotal ∧
      order.tax_amount = subtotal * TAX_RATE ∧
      order.shipping_amount = SHIPPING_RATE ∧
      order.total_amount = subtotal + subtotal * TAX_RATE + SHIPPING_RATE ∧
      order.items = items ∧
      order.order_status = "pending" := by
  unfold checkout at h
  cases hempty : st.cart.isEmpty with
  | true => rw [hempty] at h; exact absurd h (by simp)
  | false =>
    rw [hempty] at h
    simp only [Bool.false_eq_true, if_false] at h
    cases hcs : checkStock st.cart st.products with
    | some e => rw [hcs] at h; exact absurd h (by simp)
    | none =>
      rw [hcs] at h
      cases hsub : cartSubtotal st.cart st.products with
      | none => rw [hsub] at h; exact absurd h (by simp)
      | some sub =>
        rw [hsub] at h
        simp only at h
        cases hpi : processItems st.cart st.products with
        | none => rw [hpi] at h; exact absurd h (by simp)
        | some pr =>
          obtain ⟨items, products'⟩ := pr
          rw [hpi] at h
          simp only [Except.ok.injEq, Prod.mk.injEq] at h
          obtain ⟨hst, hord⟩ := h
          subst hst
          subst hord
          exact ⟨items, sub, rfl, rfl, rfl, rfl, rfl, rfl, rfl, rfl, rfl⟩

theorem checkStock_some_of_shortage (lines : List CartItem) (ps : List Product)
    (hpres : ∀ l ∈ lines, (getProduct ps l.product_id).isSome)
    (hshort : ∃ l ∈ lines, ∃ p, getProduct ps l.product_id = some p
      ∧ p.stock_quantity < l.quantity) :
    ∃ l ∈ lines, ∃ p, getProduct ps l.product_id = some p
      ∧ p.stock_quantity < l.quantity
      ∧ checkStock lines ps = some (.insufficientStock p.name p.stock_quantity) := by
  induction lines with
  | nil => obtain ⟨l, hl, _⟩ := hshort; exact absurd hl (List.not_mem_nil l)
  | cons l rest ih =>
    have hl := hpres l (List.mem_cons_self l rest)
    cases hq : getProduct ps l.product_id with
    | none => rw [hq] at hl; simp at hl
    | some p =>
      by_cases hs : p.stock_quantity < l.quantity
      · refine ⟨l, List.mem_cons_self l rest, p, hq, hs, ?_⟩
        unfold checkStock
        rw [hq]
        simp only
        rw [if_pos hs]
      · obtain ⟨l', hl', p', hp', hs'⟩ := hshort
        have hlrest : l' ∈ rest := by
          rcases List.mem_cons.mp hl' with heq | hmem
          · subst heq
            rw [hq] at hp'
            injection hp' with hpp
            subst hpp
            exact absurd hs' hs
          · exact hmem
        obtain ⟨l'', hl'', p'', hp'', hs'', hcs⟩ :=
          ih (fun c hc => hpres c (List.mem_cons_of_mem _ hc)) ⟨l', hlrest, p', hp', hs'⟩
        refine ⟨l'', List.mem_cons_of_mem _ hl'', p'', hp'', hs'', ?_⟩
        unfold checkStock
        rw [hq]
        simp only
        rw [if_neg hs]
        exact hcs

/-! ### Helper lemmas about the cart operations -/

theorem find?_map_pid_preserve (cart : List CartItem) (pid : Nat)
    (f : CartItem → CartItem) (hf : ∀ c, (f c).product_id = c.product_id) :
    (cart.map f).find? (fun c => c.product_id == pid)
      = (cart.find? (fun c => c.product_id == pid)).map f := by
  induction cart with
  | nil => rfl
  | cons c rest ih =>
    by_cases h : c.product_id = pid
    · have h1 : ((f c).product_id == pid) = true := by simp [hf c, h]
      have h2 : (c.product_id == pid) = true := by simp [h]
      simp [List.find?_cons_of_pos, h1, h2]
    · have h1 : ((f c).product_id == pid) = false := by simp [hf c, h]
      have h2 : (c.product_id == pid) = false := by simp [h]
      simpa [List.find?_cons_of_neg, h1, h2] using ih

theorem find?_append_of_none {α : Type} (p : α → Bool) (l₁ l₂ : List α)
    (h : l₁.find? p = none) : (l₁ ++ l₂).find? p = l₂.find? p := by
  induction l₁ with
  | nil => rfl
  | cons a rest ih =>
    cases hp : p a with
    | true => rw [List.find?_cons_of_pos _ hp] at h; exact absurd h (by simp)
    | false =>
      have hp' : ¬p a = true := by simp [hp]
      rw [List.find?_cons_of_neg _ hp'] at h
      rw [List.cons_append, List.find?_cons_of_neg _ hp']
      exact ih h

theorem map_pid_map (cart : List CartItem) (f : CartItem → CartItem)
    (hf : ∀ c, (f c).product_id = c.product_id) :
    (cart.map f).map (fun c => c.product_id) = cart.map (fun c => c.product_id) := by
  induction cart with
  | nil => rfl
  | cons c rest ih => simp only [List.map_cons, hf c, ih]

/-- Inversion of a successful add_to_cart: the products table is untouched,
the quantity was at least 1, and the cart either had a line for the product
(which got incremented, within stock) or a fresh line was appended (within
stock). -/
theorem add_to_cart_ok_inv (st : State) (pid : Nat) (q : Int) (nid : Nat) (st' : State)
    (h : add_to_cart st pid q nid = .ok st') :
    st'.products = st.products ∧
    ∃ product, getProduct st.products pid = some product ∧ 1 ≤ q ∧
      ((∃ c, st.cart.find? (fun c' => c'.product_id == pid) = some c ∧
        c.quantity + q ≤ product.stock_quantity ∧
        st'.cart = st.cart.map (fun c' =>
          if c'.product_id == pid then { c' with quantity := c.quantity + q } else c')) ∨
       (st.cart.find? (fun c' => c'.product_id == pid) = none ∧
        q ≤ product.stock_quantity ∧
        st'.cart = st.cart ++ [⟨nid, pid, q⟩])) := by
  unfold add_to_cart at h
  cases hg : getProduct st.products pid with
  | none => rw [hg] at h; exact absurd h (by simp)
  | some product =>
    rw [hg] at h
    simp only at h
    by_cases h1 : q < 1
    · rw [if_pos h1] at h; exact absurd h (by simp)
    · rw [if_neg h1] at h
      by_cases h2 : product.stock_quantity < q
      · rw [if_pos h2] at h; exact absurd h (by simp)
      · rw [if_neg h2] at h
        cases hf : st.cart.find? (fun c' => c'.product_id == pid) with
        | some c =>
          rw [hf] at h
          simp only at h
          by_cases h3 : product.stock_quantity < c.quantity + q
          · rw [if_pos h3] at h; exact absurd h (by simp)
          · rw [if_neg h3] at h
            injection h with hst
            exact ⟨by rw [← hst], product, rfl, by omega,
              .inl ⟨c, rfl, by omega, by rw [← hst]⟩⟩
        | none =>
          rw [hf] at h
          injection h with hst
          exact ⟨by rw [← hst], product, rfl, by omega,
            .inr ⟨rfl, by omega, by rw [← hst]⟩⟩

/-- Inversion of a successful update_cart: the products table is untouched
and the found line's quantity was replaced by the posted one. -/
theorem update_cart_ok_inv (st : State) (iid : Nat) (q : Option Int) (st' : State)
    (h : update_cart st iid q = .ok st') :
    st'.products = st.products ∧
    ∃ qv, q = some qv ∧ 1 ≤ qv ∧
      st'.cart = st.cart.map (fun c =>
        if c.id == iid then { c with quantity := qv } else c) := by
  unfold update_cart at h
  cases hf : st.cart.find? (fun c => c.id == iid) with
  | none => rw [hf] at h; exact absurd h (by simp)
  | some cart_item =>
    rw [hf] at h
    simp only at h
    cases q with
    | none => exact absurd h (by simp)
    | some qv =>
      simp only at h
      by_cases h1 : qv < 1
      · rw [if_pos h1] at h; exact absurd h (by simp)
      · rw [if_neg h1] at h
        cases hg : getProduct st.products cart_item.product_id with
        | none => rw [hg] at h; exact absurd h (by simp)
        | some product =>
          rw [hg] at h
          simp only at h
          by_cases h2 : product.stock_quantity < qv
          · rw [if_pos h2] at h; exact absurd h (by simp)
          · rw [if_neg h2] at h
            injection h with hst
            exact ⟨by rw [← hst], qv, rfl, by omega, by rw [← hst]⟩

/-- Inversion of a successful remove_from_cart: the products table is
untouched and the row with the posted id is gone. -/
theorem remove_from_cart_ok_inv (st : State) (iid : Nat) (st' : State)
    (h : remove_from_cart st iid = .ok st') :
    st'.products = st.products ∧
    st'.cart = st.cart.filter (fun c => c.id != iid) := by
  unfold remove_from_cart at h
  cases hf : st.cart.find? (fun c => c.id == iid) with
  | none => rw [hf] at h; exact absurd h (by simp)
  | some c =>
    rw [hf] at h
    injection h with hst
    exact ⟨by rw [← hst], by rw [← hst]⟩

theorem applyLine_nonneg (ps : List Product) (l : CartItem)
    (h : ∀ p ∈ ps, 0 ≤ p.stock_quantity) :
    ∀ p ∈ applyLine ps l, 0 ≤ p.stock_quantity := by
  intro p hp
  unfold applyLine at hp
  obtain ⟨p0, hp0, hfp⟩ := List.mem_map.mp hp
  subst hfp
  by_cases hid : (p0.id == l.product_id) = true
  · rw [if_pos hid]
    exact Product.decrease_stock_nonneg p0 l.quantity (h p0 hp0)
  · rw [if_neg hid]
    exact h p0 hp0

theorem processItems_nonneg (lines : List CartItem) (ps : List Product)
    (items : List OrderItem) (ps' : List Product)
    (h : processItems lines ps = some (items, ps'))
    (hnn : ∀ p ∈ ps, 0 ≤ p.stock_quantity) :
    ∀ p ∈ ps', 0 ≤ p.stock_quantity := by
  induction lines generalizing ps items with
  | nil =>
    unfold processItems at h
    injection h with h'
    injection h' with _ h2
    rw [← h2]
    exact hnn
  | cons l rest ih =>
    unfold processItems at h
    cases hq : getProduct ps l.product_id with
    | none => rw [hq] at h; exact absurd h (by simp)
    | some p =>
      rw [hq] at h
      simp only at h
      cases hpi : processItems rest (applyLine ps l) with
      | none => rw [hpi] at h; exact absurd h (by simp)
      | some pr =>
        obtain ⟨items', ps''⟩ := pr
        rw [hpi] at h
        simp only [Option.some.injEq, Prod.mk.injEq] at h
        obtain ⟨_, hps⟩ := h
        exact ih (applyLine ps l) items' (by rw [hpi, hps])
          (applyLine_nonneg ps l hnn)

/-- Concrete evaluation of the single-line scenario checkout. -/
theorem checkout_exStateSingle_eq :
    checkout exStateSingle "ASH-2" "cod" 0 = .ok (exStateSingleAfter, exOrderSingle) := by
  norm_num [checkout, exStateSingle, exProductA, checkStock, cartSubtotal, processItems,
    applyLine, getProduct, Product.discounted_price, Product.decrease_stock,
    TAX_RATE, SHIPPING_RATE, List.find?, exStateSingleAfter, exOrderSingle]

/-- Concrete evaluation of the two-line scenario checkout. -/
theorem checkout_exStateTwoLines_eq :
    checkout exStateTwoLines "ASH-1" "cod" 0 = .ok (exStateTwoLinesAfter, exOrderTwoLines) := by
  norm_num [checkout, exStateTwoLines, exProductA, exProductB, checkStock, cartSubtotal,
    processItems, applyLine, getProduct, Product.discounted_price, Product.decrease_stock,
    TAX_RATE, SHIPPING_RATE, List.find?, exStateTwoLinesAfter, exOrderTwoLines,
    show ((1:Nat) == 2) = false from rfl, show ((2:Nat) == 2) = true from rfl,
    show ((2:Nat) == 1) = false from rfl, show ((1:Nat) == 1) = true from rfl]

/-! ### Claim theorems -/

/-- C1: for every checkout on a non-empty cart in which every cart line's
product has stock_quantity ≥ quantity (a successful placement), afterwards
the user's cart has no lines, each touched product's stock_quantity has
decreased by exactly that line's ordered quantity, the sum of the created
OrderItem.total_price values equals the created Order.subtotal, and
Order.total_amount = subtotal + tax_amount + shipping_amount, all exactly in
decimal arithmetic. The cart lines reference distinct, existing products,
as the `unique_cart_item` constraint and the `cart.product_id` foreign key
guarantee. -/
theorem checkout_success_postconditions
    (st : State) (onum pm : String) (now : Nat)
    (hne : st.cart ≠ [])
    (hnd : (st.cart.map (fun l => l.product_id)).Nodup)
    (hav : stockAvailable st = true) :
    ∃ st' order, checkout st onum pm now = .ok (st', order) ∧
      st'.cart = [] ∧
      (∀ l ∈ st.cart, ∀ p, getProduct st.products l.product_id = some p →
        getProduct st'.products l.product_id =
          some { p with stock_quantity := p.stock_quantity - l.quantity }) ∧
      (order.items.map (fun i => i.total_price)).sum = order.subtotal ∧
      order.total_amount = order.subtotal + order.tax_amount + order.shipping_amount := by
  have hav' := (stockAvailable_iff st).mp hav
  obtain ⟨items, products', sub, hpi, hsub, hok⟩ := checkout_eq_ok st onum pm now hne hav'
  refine ⟨_, _, hok, rfl, ?_, ?_, ?_⟩
  · intro l hl p hp
    have hstock := processItems_stock st.cart st.products items products' hnd hpi l hl
    rw [hstock, hp]
    obtain ⟨p', hp', hle⟩ := hav' l hl
    rw [hp] at hp'
    injection hp' with hpp
    subst hpp
    simp only [Option.map_some']
    rw [Product.decrease_stock_of_le p l.quantity hle]
  · have hsum := processItems_sum st.cart st.products items products' hpi
    rw [hsub] at hsum
    injection hsum with hs
    exact hs.symm
  · rfl

/-- Witness for C1 at a two-line cart over two distinct products. -/
theorem checkout_success_postconditions_witness :
    exStateTwoLines.cart ≠ [] ∧
    (exStateTwoLines.cart.map (fun l => l.product_id)).Nodup ∧
    stockAvailable exStateTwoLines = true ∧
    exStateTwoLinesAfter.cart = [] ∧
    getProduct exStateTwoLinesAfter.products 1
      = some { exProductA with stock_quantity := exProductA.stock_quantity - 2 } ∧
    getProduct exStateTwoLinesAfter.products 2
      = some { exProductB with stock_quantity := exProductB.stock_quantity - 3 } ∧
    (exOrderTwoLines.items.map (fun i => i.total_price)).sum = exOrderTwoLines.subtotal ∧
    exOrderTwoLines.total_amount
      = exOrderTwoLines.subtotal + exOrderTwoLines.tax_amount
        + exOrderTwoLines.shipping_amount := by
  obtain ⟨st', order, hok, hcart, hstock, hsum, htot⟩ :=
    checkout_success_postconditions exStateTwoLines "ASH-1" "cod" 0
      (by decide) (by decide) (by decide)
  rw [checkout_exStateTwoLines_eq] at hok
  injection hok with hpair
  injection hpair with hst hord
  subst hst
  subst hord
  refine ⟨by decide, by decide, by decide, hcart, ?_, ?_, hsum, htot⟩
  · exact hstock ⟨1, 1, 2⟩ (by decide) exProductA rfl
  · exact hstock ⟨2, 2, 3⟩ (by decide) exProductB rfl

/-- C2 (amended): for every checkout attempt, before any mutation: if the
user's cart is empty the operation fails with the empty-cart error and
creates no Order; and if for some cart line the product's stock_quantity is
less than the line quantity, the operation fails with an insufficient-stock
error naming an offending product, creates no Order, and leaves the cart and
all product stocks unchanged (an error result carries no state change). The
route does NOT test `is_active`, so inactivity of a product is not part of
the precondition. -/
theorem checkout_precondition_failures :
    (∀ st : State, ∀ onum pm : String, ∀ now : Nat, st.cart = [] →
      checkout st onum pm now = .error .emptyCart) ∧
    (∀ st : State, ∀ onum pm : String, ∀ now : Nat,
      (∀ l ∈ st.cart, (getProduct st.products l.product_id).isSome) →
      (∃ l ∈ st.cart, ∃ p, getProduct st.products l.product_id = some p
        ∧ p.stock_quantity < l.quantity) →
      ∃ l ∈ st.cart, ∃ p, getProduct st.products l.product_id = some p
        ∧ p.stock_quantity < l.quantity
        ∧ checkout st onum pm now
            = .error (.insufficientStock p.name p.stock_quantity)) := by
  constructor
  · intro st onum pm now hcart
    unfold checkout
    rw [hcart]
    rfl
  · intro st onum pm now hpres hshort
    obtain ⟨l, hl, p, hp, hs, hcs⟩ :=
      checkStock_some_of_shortage st.cart st.products hpres hshort
    refine ⟨l, hl, p, hp, hs, ?_⟩
    have hne : st.cart ≠ [] := by
      intro hcontra
      rw [hcontra] at hl
      exact List.not_mem_nil l hl
    have hempty : st.cart.isEmpty = false := by
      cases hc : st.cart.isEmpty with
      | false => rfl
      | true => exact absurd (by simpa using hc) hne
    unfold checkout
    rw [hempty]
    simp only [Bool.false_eq_true, if_false]
    rw [hcs]

/-- Witness for C2 (amended) at the empty cart and at the zero-stock cart of
the spec's out-of-stock scenario. -/
theorem checkout_precondition_failures_witness :
    checkout exStateEmptyCart "ASH-1" "cod" 0 = .error .emptyCart ∧
    checkout exStateShort "ASH-1" "cod" 0 = .error (.insufficientStock "X" 0) := by
  refine ⟨checkout_precondition_failures.1 exStateEmptyCart "ASH-1" "cod" 0 rfl, ?_⟩
  obtain ⟨l, hl, p, hp, hs, herr⟩ :=
    checkout_precondition_failures.2 exStateShort "ASH-1" "cod" 0 (by decide)
      ⟨⟨1, 1, 1⟩, by decide, exProductShort, rfl, by decide⟩
  have hleq : l = ⟨1, 1, 1⟩ := by
    simpa [exStateShort] using hl
  subst hleq
  have h0 : some exProductShort
      = getProduct exStateShort.products (⟨1, 1, 1⟩ : CartItem).product_id := rfl
  injection h0.trans hp with hpe
  subst hpe
  exact herr

/-- C2 counterexample: the claim also demands failure when a cart line's
product is not active; the route never reads `is_active`, so a checkout whose
only product is inactive (with sufficient stock) SUCCEEDS. -/
theorem checkout_inactive_product_accepted :
    (∀ p ∈ exStateInactive.products, p.is_active = false) ∧
    exceptIsOk (checkout exStateInactive "ASH-1" "cod" 0) = true := by decide

/-- C3: the checkout pricing computation is a pure function of the cart
lines: subtotal equals the sum over lines of discountedPrice(product) *
quantity where discountedPrice = price * (1 - discount/100), tax equals
subtotal * 0.18, shipping equals the flat rate 50, and total equals
subtotal + tax + shipping; for the single line with price 100, discount 10%,
quantity 2 it yields subtotal 180.00, tax 32.40, shipping 50.00, total
262.40 exactly. -/
theorem checkout_pricing :
    (∀ p : Product, p.discounted_price = p.price * (1 - p.discount / 100)) ∧
    (∀ st : State, ∀ onum pm : String, ∀ now : Nat, ∀ st' : State, ∀ order : Order,
      checkout st onum pm now = .ok (st', order) →
      cartSubtotal st.cart st.products = some order.subtotal ∧
      order.tax_amount = order.subtotal * TAX_RATE ∧
      order.shipping_amount = SHIPPING_RATE ∧
      order.total_amount = order.subtotal + order.tax_amount + order.shipping_amount) ∧
    ((checkout exStateSingle "ASH-2" "cod" 0).toOption.map
      (fun r => (r.2.subtotal, r.2.tax_amount, r.2.shipping_amount, r.2.total_amount))
      = some (180, 162/5, 50, 1312/5)) := by
  refine ⟨?_, ?_, ?_⟩
  · intro p
    unfold Product.discounted_price
    split
    · rfl
    · next h =>
      push_neg at h
      rw [h]
      ring
  · intro st onum pm now st' order h
    obtain ⟨items, sub, _, hsub, _, hs1, hs2, hs3, hs4, _, _⟩ :=
      checkout_ok_inv st onum pm now st' order h
    refine ⟨?_, ?_, ?_, ?_⟩
    · rw [hs1]; exact hsub
    · rw [hs2, hs1]
    · exact hs3
    · rw [hs4, hs1, hs2, hs3]
  · norm_num [checkout, exStateSingle, exProductA, checkStock, cartSubtotal,
      processItems, applyLine, getProduct, Product.discounted_price,
      Product.decrease_stock, TAX_RATE, SHIPPING_RATE, List.find?, Except.toOption]

/-- Witness for C3's quantified parts, at product A and at the pricing
scenario's checkout. -/
theorem checkout_pricing_witness :
    exProductA.discounted_price
      = exProductA.price * (1 - exProductA.discount / 100) ∧
    cartSubtotal exStateSingle.cart exStateSingle.products = some exOrderSingle.subtotal ∧
    exOrderSingle.tax_amount = exOrderSingle.subtotal * TAX_RATE ∧
    exOrderSingle.shipping_amount = SHIPPING_RATE ∧
    exOrderSingle.total_amount
      = exOrderSingle.subtotal + exOrderSingle.tax_amount
        + exOrderSingle.shipping_amount := by
  obtain ⟨h1, h2, h3, h4⟩ :=
    checkout_pricing.2.1 exStateSingle "ASH-2" "cod" 0 exStateSingleAfter exOrderSingle
      checkout_exStateSingle_eq
  exact ⟨checkout_pricing.1 exProductA, h1, h2, h3, h4⟩

/-- C4: for every order and every requested status: if the requested status
is one of the six known values (pending, confirmed, packed, shipped,
delivered, cancelled) the transition operation sets the order's order_status
to it, sets tracking_number when one is supplied (a truthy form value), and
appends exactly one OrderStatusHistory entry with that status and the given
notes; if the requested status is any other string it fails with an
invalid-status error and both order_status and the history are unchanged (an
error result carries no state change). -/
theorem update_order_status_spec :
    (∀ order : Order, ∀ s notes : String, ∀ tr : Option String, ∀ now : Nat,
      s ∈ VALID_ORDER_STATUSES →
      ∃ order', update_order_status order s notes tr now = .ok order' ∧
        order'.order_status = s ∧
        order'.status_history = order.status_history ++ [⟨s, some notes, now⟩] ∧
        (pyTruthy tr = true → order'.tracking_number = tr) ∧
        (pyTruthy tr = false → order'.tracking_number = order.tracking_number)) ∧
    (∀ order : Order, ∀ s notes : String, ∀ tr : Option String, ∀ now : Nat,
      s ∉ VALID_ORDER_STATUSES →
      update_order_status order s notes tr now = .error "Invalid status") := by
  constructor
  · intro order s notes tr now hs
    unfold update_order_status
    rw [if_neg (not_not_intro hs)]
    exact ⟨_, rfl, rfl, rfl,
      fun hpt => if_pos hpt,
      fun hpt => if_neg (by rw [hpt]; exact fun hcontra => absurd hcontra (by simp))⟩
  · intro order s notes tr now hs
    unfold update_order_status
    rw [if_pos hs]

/-- Witness for C4 at the spec's scenario: transition to `shipped` with notes
and tracking number succeeds and appends one entry; a transition to `bogus`
fails. -/
theorem update_order_status_spec_witness :
    update_order_status exOrderBase "shipped" "via carrier X" (some "TRK-1") 7
      = .ok exOrderShipped ∧
    exOrderShipped.order_status = "shipped" ∧
    exOrderShipped.status_history
      = exOrderBase.status_history ++ [⟨"shipped", some "via carrier X", 7⟩] ∧
    exOrderShipped.tracking_number = some "TRK-1" ∧
    update_order_status exOrderBase "bogus" "" none 7 = .error "Invalid status" := by
  obtain ⟨order', hok, hst, hhist, htr, _⟩ :=
    update_order_status_spec.1 exOrderBase "shipped" "via carrier X" (some "TRK-1") 7
      (by decide)
  have hoeq : order' = exOrderShipped := by
    have h0 : update_order_status exOrderBase "shipped" "via carrier X" (some "TRK-1") 7
        = .ok exOrderShipped := rfl
    injection (h0.symm.trans hok) with h1
    exact h1.symm
  subst hoeq
  exact ⟨hok, hst, hhist, htr rfl,
    update_order_status_spec.2 exOrderBase "bogus" "" none 7 (by decide)⟩

/-- C5: for every product whose stock_quantity is initially non-negative,
every operation of the system (cart add/update/remove, checkout, stock
decrease/increase) preserves stock_quantity ≥ 0; in particular
decrease_stock(q) decrements the stock by q and returns true only when
stock_quantity ≥ q, and otherwise returns false leaving the stock unchanged.
The cart operations never write the products table at all; increase_stock is
applied to a (non-negative) quantity. -/
theorem stock_nonneg_invariant :
    (∀ p : Product, ∀ q : Int, q ≤ p.stock_quantity →
      p.decrease_stock q = ({ p with stock_quantity := p.stock_quantity - q }, true)) ∧
    (∀ p : Product, ∀ q : Int, p.stock_quantity < q →
      p.decrease_stock q = (p, false)) ∧
    (∀ p : Product, ∀ q : Int, 0 ≤ p.stock_quantity →
      0 ≤ ((p.decrease_stock q).1).stock_quantity) ∧
    (∀ p : Product, ∀ q : Int, 0 ≤ p.stock_quantity → 0 ≤ q →
      0 ≤ (p.increase_stock q).stock_quantity) ∧
    (∀ st : State, ∀ pid : Nat, ∀ q : Int, ∀ nid : Nat, ∀ st' : State,
      add_to_cart st pid q nid = .ok st' → st'.products = st.products) ∧
    (∀ st : State, ∀ iid : Nat, ∀ q : Option Int, ∀ st' : State,
      update_cart st iid q = .ok st' → st'.products = st.products) ∧
    (∀ st : State, ∀ iid : Nat, ∀ st' : State,
      remove_from_cart st iid = .ok st' → st'.products = st.products) ∧
    (∀ st : State, ∀ onum pm : String, ∀ now : Nat, ∀ st' : State, ∀ order : Order,
      checkout st onum pm now = .ok (st', order) →
      (∀ p ∈ st.products, 0 ≤ p.stock_quantity) →
      ∀ p ∈ st'.products, 0 ≤ p.stock_quantity) := by
  refine ⟨?_, ?_, ?_, ?_, ?_, ?_, ?_, ?_⟩
  · intro p q h; exact Product.decrease_stock_of_le p q h
  · intro p q h; exact Product.decrease_stock_of_lt p q h
  · intro p q h; exact Product.decrease_stock_nonneg p q h
  · intro p q h hq
    show 0 ≤ p.stock_quantity + q
    omega
  · intro st pid q nid st' h; exact (add_to_cart_ok_inv st pid q nid st' h).1
  · intro st iid q st' h; exact (update_cart_ok_inv st iid q st' h).1
  · intro st iid st' h; exact (remove_from_cart_ok_inv st iid st' h).1
  · intro st onum pm now st' order h hnn
    obtain ⟨items, sub, hpi, _, _, _, _, _, _, _, _⟩ :=
      checkout_ok_inv st onum pm now st' order h
    exact processItems_nonneg st.cart st.products items st'.products hpi hnn

/-- Witness for C5 at concrete products, cart operations and a checkout. -/
theorem stock_nonneg_invariant_witness :
    exProductA.decrease_stock 2
      = ({ exProductA with stock_quantity := exProductA.stock_quantity - 2 }, true) ∧
    exProductShort.decrease_stock 1 = (exProductShort, false) ∧
    0 ≤ ((exProductA.decrease_stock 5).1).stock_quantity ∧
    0 ≤ (exProductA.increase_stock 3).stock_quantity ∧
    exStateTwoLinesAdded.products = exStateTwoLines.products ∧
    0 ≤ (Product.mk 1 "A" "PN-A" 100 10 0 true).stock_quantity :=
  ⟨stock_nonneg_invariant.1 exProductA 2 (by decide),
   stock_nonneg_invariant.2.1 exProductShort 1 (by decide),
   stock_nonneg_invariant.2.2.1 exProductA 5 (by decide),
   stock_nonneg_invariant.2.2.2.1 exProductA 3 (by decide) (by decide),
   stock_nonneg_invariant.2.2.2.2.1 exStateTwoLines 2 1 99 exStateTwoLinesAdded rfl,
   stock_nonneg_invariant.2.2.2.2.2.2.2 exStateSingle "ASH-2" "cod" 0
     exStateSingleAfter exOrderSingle checkout_exStateSingle_eq (by decide)
     ⟨1, "A", "PN-A", 100, 10, 0, true⟩ (by decide)⟩

/-- C7: for every user, every cart state reachable by the cart operations
has at most one cart line per (user, product) pair — the product ids of the
cart lines are pairwise distinct — and adding a product that is already in
the user's cart increments that line's quantity by the requested amount
rather than creating a second line (the cart's length is unchanged). -/
theorem cart_unique_product_lines :
    (∀ st : State, Reachable st → (st.cart.map (fun l => l.product_id)).Nodup) ∧
    (∀ st : State, ∀ pid : Nat, ∀ q : Int, ∀ nid : Nat, ∀ st' : State, ∀ c : CartItem,
      st.cart.find? (fun c' => c'.product_id == pid) = some c →
      add_to_cart st pid q nid = .ok st' →
      st'.cart.length = st.cart.length ∧
      st'.cart.find? (fun c' => c'.product_id == pid)
        = some { c with quantity := c.quantity + q }) := by
  constructor
  · intro st hr
    induction hr with
    | init ps => simp
    | add st pid q nid st' hr hok ih =>
      obtain ⟨_, product, hg, hq1, hcases⟩ := add_to_cart_ok_inv st pid q nid st' hok
      rcases hcases with ⟨c, hf, _, hcart⟩ | ⟨hf, _, hcart⟩
      · rw [hcart, map_pid_map]
        · exact ih
        · intro c'
          split <;> rfl
      · rw [hcart]
        have hnotin : pid ∉ st.cart.map (fun l => l.product_id) := by
          intro hmem
          obtain ⟨c', hc', hpid⟩ := List.mem_map.mp hmem
          have hnone := List.find?_eq_none.mp hf c' hc'
          simp [hpid] at hnone
        rw [List.map_append]
        refine List.Nodup.append ih (List.nodup_singleton pid) ?_
        intro x hx hy
        simp only [List.map_cons, List.map_nil, List.mem_singleton] at hy
        subst hy
        exact hnotin hx
    | update st iid q st' hr hok ih =>
      obtain ⟨_, qv, _, _, hcart⟩ := update_cart_ok_inv st iid q st' hok
      rw [hcart, map_pid_map]
      · exact ih
      · intro c
        split <;> rfl
    | remove st iid st' hr hok ih =>
      obtain ⟨_, hcart⟩ := remove_from_cart_ok_inv st iid st' hok
      rw [hcart]
      exact ih.sublist (List.Sublist.map _ (List.filter_sublist _))
    | place st onum pm now st' order hr hok ih =>
      obtain ⟨_, _, _, _, hcart, _⟩ := checkout_ok_inv st onum pm now st' order hok
      rw [hcart]
      simp
    | catalog st products hr ih => exact ih
  · intro st pid q nid st' c hfc hok
    obtain ⟨_, product, hg, hq1, hcases⟩ := add_to_cart_ok_inv st pid q nid st' hok
    rcases hcases with ⟨c0, hf0, hle, hcart⟩ | ⟨hf0, _, _⟩
    · rw [hfc] at hf0
      injection hf0 with hc0
      subst hc0
      constructor
      · rw [hcart, List.length_map]
      · rw [hcart, find?_map_pid_preserve st.cart pid _ (by intro c'; split <;> rfl), hfc]
        simp only [Option.map_some']
        rw [if_pos (List.find?_some hfc)]
    · rw [hfc] at hf0
      exact absurd hf0 (by simp)

/-- Witness for C7: a concretely reachable two-line cart has distinct
product lines, and re-adding product B increments its line in place. -/
theorem cart_unique_product_lines_witness :
    (exStateTwoLines.cart.map (fun l => l.product_id)).Nodup ∧
    exStateTwoLinesAdded.cart.length = exStateTwoLines.cart.length ∧
    exStateTwoLinesAdded.cart.find? (fun c' => c'.product_id == 2)
      = some ⟨2, 2, 3 + 1⟩ := by
  have hreach : Reachable exStateTwoLines := by
    have h0 : Reachable (⟨[exProductA, exProductB], []⟩ : State) :=
      Reachable.init [exProductA, exProductB]
    have h1 := Reachable.add _ 1 2 1 _ h0
      (rfl : add_to_cart ⟨[exProductA, exProductB], []⟩ 1 2 1
        = .ok ⟨[exProductA, exProductB], [⟨1, 1, 2⟩]⟩)
    exact Reachable.add _ 2 3 2 _ h1
      (rfl : add_to_cart ⟨[exProductA, exProductB], [⟨1, 1, 2⟩]⟩ 2 3 2
        = .ok exStateTwoLines)
  obtain ⟨hlen, hfind⟩ := cart_unique_product_lines.2 exStateTwoLines 2 1 99
    exStateTwoLinesAdded ⟨2, 2, 3⟩ rfl rfl
  exact ⟨cart_unique_product_lines.1 exStateTwoLines hreach, hlen, hfind⟩

/-- C10: for every add-to-cart request, a requested quantity less than 1 is
rejected without changing the cart, and the request is rejected without
change whenever the resulting cart line quantity (existing quantity plus
requested quantity, or the requested quantity for a new line) would exceed
the product's current stock_quantity; hence after any successful add, the
line's quantity is at most the product's stock at that moment. A rejected
request returns an error carrying no state, so the cart is unchanged. -/
theorem add_to_cart_quantity_bounds :
    (∀ st : State, ∀ pid : Nat, ∀ q : Int, ∀ nid : Nat, q < 1 →
      exceptIsOk (add_to_cart st pid q nid) = false) ∧
    (∀ st : State, ∀ pid : Nat, ∀ q : Int, ∀ nid : Nat, ∀ p : Product,
      getProduct st.products pid = some p →
      p.stock_quantity < resultingQuantity st pid q →
      exceptIsOk (add_to_cart st pid q nid) = false) ∧
    (∀ st : State, ∀ pid : Nat, ∀ q : Int, ∀ nid : Nat, ∀ st' : State,
      add_to_cart st pid q nid = .ok st' →
      ∃ p c, getProduct st.products pid = some p ∧
        st'.cart.find? (fun c' => c'.product_id == pid) = some c ∧
        c.quantity ≤ p.stock_quantity) := by
  refine ⟨?_, ?_, ?_⟩
  · intro st pid q nid h
    unfold add_to_cart
    split
    · rfl
    · rw [if_pos h]; rfl
  · intro st pid q nid p hg hover
    unfold resultingQuantity at hover
    unfold add_to_cart
    split
    · next hnone => rw [hg] at hnone; exact absurd hnone (by simp)
    · next product hsome =>
      rw [hg] at hsome
      injection hsome with hpe
      subst hpe
      by_cases h1 : q < 1
      · rw [if_pos h1]; rfl
      · rw [if_neg h1]
        by_cases h2 : p.stock_quantity < q
        · rw [if_pos h2]; rfl
        · rw [if_neg h2]
          cases hf : st.cart.find? (fun c => c.product_id == pid) with
          | some c =>
            rw [hf] at hover
            simp only [Option.map_some', Option.getD_some] at hover
            simp only
            rw [if_pos hover]
            rfl
          | none =>
            rw [hf] at hover
            simp only [Option.map_none', Option.getD_none] at hover
            omega
  · intro st pid q nid st' h
    obtain ⟨_, product, hg, hq1, hcases⟩ := add_to_cart_ok_inv st pid q nid st' h
    rcases hcases with ⟨c, hf, hle, hcart⟩ | ⟨hf, hle, hcart⟩
    · refine ⟨product, { c with quantity := c.quantity + q }, hg, ?_, hle⟩
      rw [hcart, find?_map_pid_preserve st.cart pid _ (by intro c'; split <;> rfl), hf]
      simp only [Option.map_some']
      rw [if_pos (List.find?_some hf)]
    · refine ⟨product, ⟨nid, pid, q⟩, hg, ?_, hle⟩
      rw [hcart, find?_append_of_none _ _ _ hf]
      rw [List.find?_cons_of_pos _ (by simp)]

/-- Witness for C10: a sub-1 quantity and an over-stock quantity at product
A are rejected; re-adding product B succeeds with a within-stock line. -/
theorem add_to_cart_quantity_bounds_witness :
    exceptIsOk (add_to_cart exStateSingle 1 0 9) = false ∧
    exceptIsOk (add_to_cart exStateSingle 1 1 9) = false ∧
    ∃ p c, getProduct exStateTwoLines.products 2 = some p ∧
      exStateTwoLinesAdded.cart.find? (fun c' => c'.product_id == 2) = some c ∧
      c.quantity ≤ p.stock_quantity :=
  ⟨add_to_cart_quantity_bounds.1 exStateSingle 1 0 9 (by decide),
   add_to_cart_quantity_bounds.2.1 exStateSingle 1 1 9 exProductA rfl (by decide),
   add_to_cart_quantity_bounds.2.2 exStateTwoLines 2 1 99 exStateTwoLinesAdded rfl⟩

/-! ### Helper lemmas about digit formatting -/

theorem natDigitsAux_length_le (fuel : Nat) :
    ∀ n w : Nat, n < 10 ^ (w + 1) → (natDigitsAux fuel n).length ≤ w + 1 := by
  induction fuel with
  | zero => intro n w _; simp [natDigitsAux]
  | succ fuel ih =>
    intro n w h
    unfold natDigitsAux
    by_cases h10 : n < 10
    · rw [if_pos h10]
      simp
    · rw [if_neg h10]
      rw [List.length_append, List.length_cons, List.length_nil]
      cases w with
      | zero =>
        rw [pow_one] at h
        omega
      | succ w' =>
        have hdiv : n / 10 < 10 ^ (w' + 1) := by
          rw [Nat.div_lt_iff_lt_mul (by norm_num)]
          calc n < 10 ^ (w' + 2) := h
          _ = 10 ^ (w' + 1) * 10 := by ring
        have := ih (n / 10) w' hdiv
        omega

theorem natDigits_length_le (n w : Nat) (hw : 1 ≤ w) (h : n < 10 ^ w) :
    (natDigits n).length ≤ w := by
  obtain ⟨w', rfl⟩ : ∃ w', w = w' + 1 := ⟨w - 1, by omega⟩
  exact natDigitsAux_length_le (n + 1) n w' h

theorem padNat_length (w n : Nat) (hw : 1 ≤ w) (h : n < 10 ^ w) :
    (padNat w n).length = w := by
  unfold padNat
  rw [List.length_append, List.length_replicate]
  have := natDigits_length_le n w hw h
  omega

theorem digitChar_mem_digitChars (m : Nat) (h : m < 10) :
    Nat.digitChar m ∈ digitChars := by
  interval_cases m <;> decide

theorem natDigitsAux_subset_digits (fuel : Nat) :
    ∀ n : Nat, ∀ c ∈ natDigitsAux fuel n, c ∈ digitChars := by
  induction fuel with
  | zero => intro n c hc; simp [natDigitsAux] at hc
  | succ fuel ih =>
    intro n c hc
    unfold natDigitsAux at hc
    by_cases h10 : n < 10
    · rw [if_pos h10] at hc
      simp only [List.mem_singleton] at hc
      subst hc
      exact digitChar_mem_digitChars n h10
    · rw [if_neg h10] at hc
      rcases List.mem_append.mp hc with h1 | h2
      · exact ih (n / 10) c h1
      · simp only [List.mem_singleton] at h2
        subst h2
        exact digitChar_mem_digitChars (n % 10) (Nat.mod_lt n (by omega))

theorem padNat_subset_digits (w n : Nat) : ∀ c ∈ padNat w n, c ∈ digitChars := by
  intro c hc
  unfold padNat at hc
  rcases List.mem_append.mp hc with h1 | h2
  · rw [List.eq_of_mem_replicate h1]
    decide
  · exact natDigitsAux_subset_digits (n + 1) n c h2

theorem formatTimestamp_length (t : DateTimeParts)
    (hy : t.year < 10000) (hmo : t.month < 100) (hd : t.day < 100)
    (hh : t.hour < 100) (hmi : t.minute < 100) (hs : t.second < 100) :
    (formatTimestamp t).length = 14 := by
  show (padNat 4 t.year ++ padNat 2 t.month ++ padNat 2 t.day ++
    padNat 2 t.hour ++ padNat 2 t.minute ++ padNat 2 t.second).length = 14
  simp only [List.length_append]
  rw [padNat_length 4 t.year (by omega) (by norm_num; omega),
    padNat_length 2 t.month (by omega) (by norm_num; omega),
    padNat_length 2 t.day (by omega) (by norm_num; omega),
    padNat_length 2 t.hour (by omega) (by norm_num; omega),
    padNat_length 2 t.minute (by omega) (by norm_num; omega),
    padNat_length 2 t.second (by omega) (by norm_num; omega)]

theorem formatTimestamp_digits (t : DateTimeParts) :
    ∀ c ∈ (formatTimestamp t).toList, c ∈ digitChars := by
  intro c hc
  have hc' : c ∈ padNat 4 t.year ++ padNat 2 t.month ++ padNat 2 t.day ++
      padNat 2 t.hour ++ padNat 2 t.minute ++ padNat 2 t.second := hc
  simp only [List.mem_append] at hc'
  rcases hc' with ((((h | h) | h) | h) | h) | h
  · exact padNat_subset_digits 4 t.year c h
  · exact padNat_subset_digits 2 t.month c h
  · exact padNat_subset_digits 2 t.day c h
  · exact padNat_subset_digits 2 t.hour c h
  · exact padNat_subset_digits 2 t.minute c h
  · exact padNat_subset_digits 2 t.second c h

theorem randomChoices_mem_charset (k : Nat) (pick : Nat → Nat) :
    ∀ c ∈ randomChoices ORDER_CHARSET k pick, c ∈ ORDER_CHARSET := by
  intro c hc
  unfold randomChoices at hc
  obtain ⟨i, _, hceq⟩ := List.mem_map.mp hc
  subst hceq
  have hlt : pick i % ORDER_CHARSET.length < ORDER_CHARSET.length :=
    Nat.mod_lt _ (by decide)
  rw [List.getD_eq_getElem ORDER_CHARSET 'A' hlt]
  exact List.getElem_mem hlt

/-- C6 counterexample: the claim says the timestamp segment of an order
number is the current UTC time, but `generate_order_number` formats
`datetime.now()`, the server-local clock; at a moment when the two clocks
differ the leading 18 characters are not the UTC prefix the claim
requires. -/
theorem generate_order_number_not_utc :
    generate_order_number exClock (fun _ => 0) = "ASH-20240101173000-AAAAAA" ∧
    (generate_order_number exClock (fun _ => 0)).take 18
      ≠ "ASH-" ++ formatTimestamp exClock.utc := by
  constructor
  · decide
  · decide

/-- C6 (amended): every order number produced by the generator has the
format PREFIX-timestamp-suffix: the literal prefix 'ASH', a hyphen, a
14-digit timestamp of the current LOCAL time (`datetime.now()`) in
%Y%m%d%H%M%S form, a hyphen, and a 6-character suffix drawn from uppercase
letters and digits; the 14-digit shape assumes the wall clock's components
are in their calendar ranges (4-digit year, 2-digit fields). -/
theorem generate_order_number_format (clock : Clock) (pick : Nat → Nat)
    (hy : clock.localNow.year < 10000) (hmo : clock.localNow.month < 100)
    (hd : clock.localNow.day < 100) (hh : clock.localNow.hour < 100)
    (hmi : clock.localNow.minute < 100) (hs : clock.localNow.second < 100) :
    generate_order_number clock pick
      = "ASH-" ++ formatTimestamp clock.localNow ++ "-"
        ++ String.mk (randomChoices ORDER_CHARSET 6 pick) ∧
    (formatTimestamp clock.localNow).length = 14 ∧
    (∀ c ∈ (formatTimestamp clock.localNow).toList, c ∈ digitChars) ∧
    (randomChoices ORDER_CHARSET 6 pick).length = 6 ∧
    (∀ c ∈ randomChoices ORDER_CHARSET 6 pick, c ∈ ORDER_CHARSET) := by
  refine ⟨rfl, ?_, ?_, ?_, ?_⟩
  · exact formatTimestamp_length clock.localNow hy hmo hd hh hmi hs
  · exact formatTimestamp_digits clock.localNow
  · simp [randomChoices]
  · exact randomChoices_mem_charset 6 pick

/-- Witness for C6 (amended) at the concrete clock and a constant random
stream. -/
theorem generate_order_number_format_witness :
    generate_order_number exClock (fun i => i + 30)
      = "ASH-" ++ formatTimestamp exClock.localNow ++ "-"
        ++ String.mk (randomChoices ORDER_CHARSET 6 (fun i => i + 30)) ∧
    (formatTimestamp exClock.localNow).length = 14 ∧
    (∀ c ∈ (formatTimestamp exClock.localNow).toList, c ∈ digitChars) ∧
    (randomChoices ORDER_CHARSET 6 (fun i => i + 30)).length = 6 ∧
    (∀ c ∈ randomChoices ORDER_CHARSET 6 (fun i => i + 30), c ∈ ORDER_CHARSET) :=
  generate_order_number_format exClock (fun i => i + 30)
    (by decide) (by decide) (by decide) (by decide) (by decide) (by decide)

/-- C9: for every order, getOrderTimeline returns one entry
{status, timestamp, notes} per OrderStatusHistory row of that order, sorted
in non-decreasing timestamp order, so when the rows were recorded at
non-decreasing (in particular distinct increasing) timestamps the sequence
equals the recorded order. -/
theorem get_status_timeline_spec :
    (∀ history : List OrderStatusHistory,
      List.Perm (get_status_timeline history)
        (history.map (fun h => (⟨h.status, h.created_at, h.notes⟩ : TimelineEntry))) ∧
      List.Sorted timeLe (get_status_timeline history)) ∧
    (∀ history : List OrderStatusHistory,
      List.Pairwise (fun a b : OrderStatusHistory => a.created_at ≤ b.created_at) history →
      get_status_timeline history
        = history.map (fun h => ⟨h.status, h.created_at, h.notes⟩)) := by
  constructor
  · intro history
    exact ⟨List.perm_insertionSort timeLe _, List.sorted_insertionSort timeLe _⟩
  · intro history hmono
    unfold get_status_timeline
    apply List.Sorted.insertionSort_eq
    exact (List.pairwise_map).mpr hmono

/-- Witness for C9 at a three-row history recorded at increasing
timestamps. -/
theorem get_status_timeline_spec_witness :
    List.Perm (get_status_timeline exHistory)
      (exHistory.map (fun h => (⟨h.status, h.created_at, h.notes⟩ : TimelineEntry))) ∧
    List.Sorted timeLe (get_status_timeline exHistory) ∧
    get_status_timeline exHistory
      = exHistory.map (fun h => ⟨h.status, h.created_at, h.notes⟩) :=
  ⟨(get_status_timeline_spec.1 exHistory).1,
   (get_status_timeline_spec.1 exHistory).2,
   get_status_timeline_spec.2 exHistory (by decide)⟩

/-- C8 (amended): every notification send (order confirmation email, admin
alert email, status email, push) turns any failure into a Boolean result
instead of raising, so a notification failure never changes the committed
state or order of the calling checkout or status transition; the push sender
fans out to all of the user's subscriptions independently and returns true
iff at least one subscription accepted the message; a subscription whose
endpoint rejects with HTTP 410 is deleted from the session, but the deletion
is committed only when at least one subscription accepted (success_count >
0) — otherwise the subscription rows persist unchanged. -/
theorem notification_dispatch_spec :
    (∀ e : String, send_order_confirmation_email (.error e) = false) ∧
    (send_order_confirmation_email (.ok ()) = true) ∧
    (∀ e : String, send_admin_order_notification (.error e) = false) ∧
    (∀ e : String, send_order_status_email (.error e) = false) ∧
    (∀ st : State, ∀ onum pm : String, ∀ now : Nat,
      ∀ m1 m2 m1' m2' : Except String Unit,
      (checkout_route st onum pm now m1 m2).map (fun r => (r.1, r.2.1))
        = (checkout_route st onum pm now m1' m2').map (fun r => (r.1, r.2.1))) ∧
    (∀ order : Order, ∀ s notes : String, ∀ tr : Option String, ∀ now : Nat,
      ∀ m m' : Except String Unit, ∀ subs subs' : List PushSubscription,
      ∀ v v' : Bool, ∀ oc oc' : PushSubscription → PushOutcome,
      (update_order_status_route order s notes tr now m subs v oc).map (fun r => r.1)
        = (update_order_status_route order s notes tr now m' subs' v' oc').map
            (fun r => r.1)) ∧
    (∀ subs : List PushSubscription, ∀ outcome : PushSubscription → PushOutcome,
      (send_push_notification subs true outcome).1 = true
        ↔ ∃ s ∈ subs, outcome s = .ok) ∧
    (∀ subs : List PushSubscription, ∀ vapid : Bool,
      ∀ outcome : PushSubscription → PushOutcome,
      (send_push_notification subs vapid outcome).1 = true →
      (send_push_notification subs vapid outcome).2
        = subs.filter (fun s => !(outcome s == .webPushErr (some 410)))) ∧
    (∀ subs : List PushSubscription, ∀ vapid : Bool,
      ∀ outcome : PushSubscription → PushOutcome,
      (send_push_notification subs vapid outcome).1 = false →
      (send_push_notification subs vapid outcome).2 = subs) := by
  refine ⟨fun _ => rfl, rfl, fun _ => rfl, fun _ => rfl, ?_, ?_, ?_, ?_, ?_⟩
  · intro st onum pm now m1 m2 m1' m2'
    unfold checkout_route
    cases checkout st onum pm now with
    | error e => rfl
    | ok pr => rfl
  · intro order s notes tr now m m' subs subs' v v' oc oc'
    unfold update_order_status_route
    cases update_order_status order s notes tr now with
    | error e => rfl
    | ok o => rfl
  · intro subs outcome
    unfold send_push_notification
    by_cases hempty : subs = []
    · subst hempty
      simp
    · rw [if_neg hempty]
      simp only [Bool.not_true, Bool.false_eq_true, if_false]
      by_cases hc : 0 < subs.countP (fun s => outcome s == .ok)
      · rw [if_pos hc]
        simp only [true_iff]
        obtain ⟨s, hs, hp⟩ := List.countP_pos_iff.mp hc
        exact ⟨s, hs, by simpa using hp⟩
      · rw [if_neg hc]
        simp only [Bool.false_eq_true, false_iff]
        rintro ⟨s, hs, hok⟩
        exact hc (List.countP_pos_iff.mpr ⟨s, hs, by simp [hok]⟩)
  · intro subs vapid outcome h
    unfold send_push_notification at h ⊢
    by_cases hempty : subs = []
    · rw [if_pos hempty] at h
      exact absurd h (by simp)
    · rw [if_neg hempty] at h ⊢
      cases vapid with
      | false => exact absurd h (by simp)
      | true =>
        simp only [Bool.not_true, Bool.false_eq_true, if_false] at h ⊢
        by_cases hc : 0 < subs.countP (fun s => outcome s == .ok)
        · rw [if_pos hc]
        · rw [if_neg hc] at h
          exact absurd h (by simp)
  · intro subs vapid outcome h
    unfold send_push_notification at h ⊢
    by_cases hempty : subs = []
    · rw [if_pos hempty]
    · rw [if_neg hempty] at h ⊢
      cases vapid with
      | false => rfl
      | true =>
        simp only [Bool.not_true, Bool.false_eq_true, if_false] at h ⊢
        by_cases hc : 0 < subs.countP (fun s => outcome s == .ok)
        · rw [if_pos hc] at h
          exact absurd h (by simp)
        · rw [if_neg hc]

/-- Witness for C8 at a failing mail transport and two concrete push
fan-outs: with one acceptance the 410 subscription is purged; with none
the rows persist. -/
theorem notification_dispatch_spec_witness :
    send_order_confirmation_email (.error "SMTP down") = false ∧
    (send_push_notification exSubs true exOutcomeMixed).2
      = exSubs.filter (fun s => !(exOutcomeMixed s == .webPushErr (some 410))) ∧
    (send_push_notification exSubs true exOutcomeGone).2 = exSubs :=
  ⟨notification_dispatch_spec.1 "SMTP down",
   notification_dispatch_spec.2.2.2.2.2.2.2.1 exSubs true exOutcomeMixed (by decide),
   notification_dispatch_spec.2.2.2.2.2.2.2.2 exSubs true exOutcomeGone (by decide)⟩

/-- C8 counterexample: the claim says a subscription whose endpoint rejects
with HTTP 410 is deleted; when NO subscription accepted, the route returns
False without reaching `db.session.commit()`, so the pending deletion is
discarded and the 410 subscription survives. -/
theorem push_410_not_deleted_without_success :
    exOutcomeGone ⟨1, "endpoint-1"⟩ = .webPushErr (some 410) ∧
    send_push_notification [⟨1, "endpoint-1"⟩] true exOutcomeGone
      = (false, [⟨1, "endpoint-1"⟩]) := by
  constructor
  · rfl
  · rfl

end AutoSpareHub
